import Mathlib

set_option maxRecDepth 10000

/-!
Verification of the MSP (MultiWii Serial Protocol) parser and command
dispatcher from `msp_parser.cpp`.

The development shallowly embeds the program:
* bytes are `Nat` values; every store into a `uint8_t` field is truncated
  with `% 256`, mirroring the C++ narrowing;
* `MspMessageParser` becomes a step function `processByte` over an explicit
  `ParserConfig`, returning the (possibly empty) list of messages handed to
  `IMspMessageHandler::onMspMessage` during that step;
* executors (`IMspCommandExecutor::execute`) become state transformers over
  `FlightDataModel`; console and UDP output is outside the model;
* `MspCommandDispatcher` keeps, per command value, the ordered list of
  registered executors, as the C++ `map<MspCommand, vector<...>>` does.
-/

namespace Msp

/-- Constant `MSP_MAX_PAYLOAD_SIZE` from the source. -/
def MSP_MAX_PAYLOAD_SIZE : Nat := 256

/-- Constant `FRAME_BUFFER_SIZE` from the source. -/
def FRAME_BUFFER_SIZE : Nat := 1024

/-- Constant `CHANNEL_COUNT` from the source. -/
def CHANNEL_COUNT : Nat := 18

/-- Enum values of `MspCommand`: STATUS = 101, ATTITUDE = 108, RC = 105,
FC_VARIANT = 102, UNKNOWN = 255.  We carry the underlying `uint8_t` value. -/
def STATUS : Nat := 101
def ATTITUDE : Nat := 108
def RC : Nat := 105
def FC_VARIANT : Nat := 102
def UNKNOWN : Nat := 255

/-- Function `MspMessageParser::toMspCommand`: map a raw command byte to the
`MspCommand` enum value (known ids map to themselves, everything else to
`UNKNOWN = 255`). -/
def toMspCommand (cmd : Nat) : Nat :=
  if cmd = 101 then STATUS
  else if cmd = 108 then ATTITUDE
  else if cmd = 105 then RC
  else if cmd = 102 then FC_VARIANT
  else UNKNOWN

/-- Structure `MspMessage`: direction (0 = OUTBOUND, 1 = INBOUND), command enum value,
declared payload size, running checksum, and the 256-byte payload array
(modelled as a list of 256 `Nat` bytes). -/
structure MspMessage where
  direction : Nat
  cmd : Nat
  size : Nat
  checksum : Nat
  payload : List Nat
  deriving DecidableEq

/-- The zero-initialised `MspMessage` right after `MspMessageParser::reset`:
`memset(&m_msg, 0, sizeof(m_msg))` followed by `m_msg.cmd = UNKNOWN`. -/
def resetMsg : MspMessage :=
  { direction := 0, cmd := UNKNOWN, size := 0, checksum := 0,
    payload := List.replicate 256 0 }

/-- States of `MspMessageParser::ParserState`. -/
inductive ParserState where
  | IDLE
  | VERSION
  | DIRECTION
  | SIZE
  | CMD
  | PAYLOAD
  | CHECKSUM
  deriving DecidableEq

/-- The mutable fields of `MspMessageParser`: current state, the message
being reconstructed, and the payload cursor `m_bufPtr`. -/
structure ParserConfig where
  state : ParserState
  msg : MspMessage
  bufPtr : Nat
  deriving DecidableEq

/-- Method `MspMessageParser::reset`: IDLE state, zeroed message (with cmd set back
to UNKNOWN), cursor 0.  This is also the constructor-time configuration. -/
def resetConfig : ParserConfig :=
  { state := ParserState.IDLE, msg := resetMsg, bufPtr := 0 }

/-- Method `MspMessageParser::processByte`: one step of the state machine.  Returns
the successor configuration together with the list of messages passed to
`m_handler.onMspMessage` during the step (empty or a singleton).  The
parameter is a `uint8_t`, hence the truncation of the input. -/
def processByte (c : ParserConfig) (b0 : Nat) : ParserConfig × List MspMessage :=
  let b := b0 % 256
  match c.state with
  | ParserState.IDLE =>
      if b = 0x24 then ({ c with state := ParserState.VERSION }, []) else (c, [])
  | ParserState.VERSION =>
      if b = 0x4D then ({ c with state := ParserState.DIRECTION }, [])
      else (resetConfig, [])
  | ParserState.DIRECTION =>
      if b = 0x3C then
        ({ c with
            msg := { c.msg with direction := 0 },
            state := ParserState.SIZE }, [])
      else if b = 0x3E then
        ({ c with
            msg := { c.msg with direction := 1 },
            state := ParserState.SIZE }, [])
      else (resetConfig, [])
  | ParserState.SIZE =>
      let m := { c.msg with size := b, checksum := b, cmd := UNKNOWN }
      if m.size > MSP_MAX_PAYLOAD_SIZE then (resetConfig, [])
      else ({ state := ParserState.CMD, msg := m, bufPtr := 0 }, [])
  | ParserState.CMD =>
      let m := { c.msg with checksum := c.msg.checksum ^^^ b, cmd := toMspCommand b }
      let s := if m.size = 0 then ParserState.CHECKSUM else ParserState.PAYLOAD
      ({ state := s, msg := m, bufPtr := 0 }, [])
  | ParserState.PAYLOAD =>
      let m := { c.msg with
                  payload := c.msg.payload.set c.bufPtr b,
                  checksum := c.msg.checksum ^^^ b }
      let p := c.bufPtr + 1
      let s := if p = m.size then ParserState.CHECKSUM else ParserState.PAYLOAD
      ({ state := s, msg := m, bufPtr := p }, [])
  | ParserState.CHECKSUM =>
      if c.msg.checksum = b then (resetConfig, [c.msg])
      else (resetConfig, [])

/-- Feed a list of bytes one at a time (the read loop in `main`),
collecting every message emitted to the handler. -/
def processBytes : ParserConfig → List Nat → ParserConfig × List MspMessage
  | c, [] => (c, [])
  | c, b :: bs =>
      let r := processByte c b
      let r2 := processBytes r.1 bs
      (r2.1, r.2 ++ r2.2)

/-- Exclusive-or fold of a byte list, used to state the checksum property. -/
def xorList (l : List Nat) : Nat := l.foldl (fun a b => a ^^^ b) 0

/-- Little-endian signed 16-bit decode of two bytes, the value read by
`*reinterpret_cast<const int16_t*>(&msg.payload[k])`. -/
def i16 (lo hi : Nat) : Int :=
  let v := lo % 256 + 256 * (hi % 256)
  if v < 32768 then (v : Int) else (v : Int) - 65536

/-- Little-endian unsigned 16-bit decode of two bytes (a `uint16_t` read). -/
def u16 (lo hi : Nat) : Nat := lo % 256 + 256 * (hi % 256)

/-- Structure `FlightDataModel`: the shared state mutated by executors.  `channels`
has `CHANNEL_COUNT = 18` entries, `fcIdentifier` holds the 4 identifier
bytes (the trailing C string terminator is not modelled), `frameBuffer` has
`FRAME_BUFFER_SIZE = 1024` bytes.  Console output driven by `verbose` is
outside the model. -/
structure FlightDataModel where
  armed : Bool
  pitch : Int
  roll : Int
  heading : Int
  channels : List Nat
  fcIdentifier : List Nat
  frameBuffer : List Nat
  fbCursor : Nat
  verbose : Bool
  deriving DecidableEq

/-- The default-initialised `FlightDataModel` (all fields zeroed, verbose
defaults to true as in the source initialisers). -/
def initModel : FlightDataModel :=
  { armed := false, pitch := 0, roll := 0, heading := 0,
    channels := List.replicate CHANNEL_COUNT 0,
    fcIdentifier := List.replicate 4 0,
    frameBuffer := List.replicate FRAME_BUFFER_SIZE 0,
    fbCursor := 0, verbose := true }

/-- Method `FlightDataModel::flushFrameBuffer`: resets the cursor (the console
message is outside the model). -/
def flushFrameBuffer (m : FlightDataModel) : FlightDataModel :=
  { m with fbCursor := 0 }

/-- Write `data` into `buf` starting at position `pos` (the `memcpy`). -/
def writeBytes (buf : List Nat) (pos : Nat) : List Nat → List Nat
  | [] => buf
  | d :: ds => writeBytes (buf.set pos d) (pos + 1) ds

/-- Method `FlightDataModel::copyToFrameBuffer`: flush first when the data would
not fit, then copy and advance the cursor. -/
def copyToFrameBuffer (m : FlightDataModel) (data : List Nat) : FlightDataModel :=
  let m1 := if m.fbCursor + data.length > FRAME_BUFFER_SIZE then flushFrameBuffer m else m
  { m1 with
      frameBuffer := writeBytes m1.frameBuffer m1.fbCursor data,
      fbCursor := m1.fbCursor + data.length }

/-- An `IMspCommandExecutor` is one `execute(msg, dataModel)` capability;
side-effect-free in the model, so a state transformer. -/
def Executor := MspMessage → FlightDataModel → FlightDataModel

/-- Executor `StatusCommandExecutor::execute` (MSP 101): when `size > 6`, the armed
flag becomes bit 0 of `payload[6]`; otherwise only console output happens. -/
def statusExec : Executor := fun msg st =>
  if msg.size > 6 then { st with armed := (msg.payload.getD 6 0 &&& 0x01) != 0 }
  else st

/-- Executor `AttitudeCommandExecutor::execute` (MSP 108): when `size >= 6`, reads
roll, pitch, heading as consecutive little-endian `int16_t` values. -/
def attitudeExec : Executor := fun msg st =>
  if msg.size ≥ 6 then
    { st with
        roll := i16 (msg.payload.getD 0 0) (msg.payload.getD 1 0),
        pitch := i16 (msg.payload.getD 2 0) (msg.payload.getD 3 0),
        heading := i16 (msg.payload.getD 4 0) (msg.payload.getD 5 0) }
  else st

/-- Executor `FcVariantCommandExecutor::execute` (MSP 102): when `size >= 4` and the
first 4 payload bytes differ from the stored identifier, store them. -/
def fcVariantExec : Executor := fun msg st =>
  if msg.size ≥ 4 then
    if st.fcIdentifier ≠ msg.payload.take 4 then
      { st with fcIdentifier := msg.payload.take 4 }
    else st
  else st

/-- Executor `RcCommandConsoleExecutor::execute` (MSP 105): when `size >= 32`, copies
the first 16 little-endian `uint16_t` payload values into `channels[0..15]`
(`channels[16]` and `channels[17]` keep their values). -/
def rcConsoleExec : Executor := fun msg st =>
  if msg.size ≥ 16 * 2 then
    let fresh := (List.range 16).map
      (fun i => u16 (msg.payload.getD (2 * i) 0) (msg.payload.getD (2 * i + 1) 0))
    { st with channels := fresh ++ st.channels.drop 16 }
  else st

/-- Executor `RcCommandAlinkForwarder::execute` (MSP 105): reads channels 8, 10, 11
and sends a UDP datagram; it never writes `FlightDataModel`, so in the
model it is the identity on the state. -/
def rcAlinkExec : Executor := fun _ st => st

/-- Table of `MspCommandDispatcher`: for each command enum value the
ordered list of registered executors (the `map<MspCommand, vector<...>>`;
an absent key is the empty list). -/
def DispatchTable := Nat → List Executor

/-- A dispatcher with nothing registered. -/
def emptyTable : DispatchTable := fun _ => []

/-- Method `MspCommandDispatcher::registerExecutor`: append one executor to the
list for `cmd`, preserving earlier registrations and their order. -/
def registerExecutor (t : DispatchTable) (cmd : Nat) (e : Executor) : DispatchTable :=
  fun k => if k = cmd then t k ++ [e] else t k

/-- Method `MspCommandDispatcher::dispatchMessage`: run every executor registered
for `msg.cmd`, in order, each seeing the state left by the previous one.
An empty list (absent key) is a no-op apart from console output. -/
def dispatchMessage (t : DispatchTable) (msg : MspMessage) (st : FlightDataModel) :
    FlightDataModel :=
  (t msg.cmd).foldl (fun s e => e msg s) st

/-- The executors registered by the `MspCommandDispatcher` constructor:
STATUS, ATTITUDE and FC_VARIANT. -/
def baseTable : DispatchTable :=
  registerExecutor
    (registerExecutor
      (registerExecutor emptyTable STATUS statusExec)
      ATTITUDE attitudeExec)
    FC_VARIANT fcVariantExec

/-- The table after `main` additionally registers the RC console executor
(the alink forwarder is added only when an output port is given; it is the
identity on the model either way). -/
def mainTable : DispatchTable := registerExecutor baseTable RC rcConsoleExec

/-- Byte image of an `MspMessage` used by `onMspMessage`'s
`copyToFrameBuffer(&msg, sizeof(msg))`: the fields in declaration order
(four `uint8_t` fields, then the 256 payload bytes — 260 bytes, the
struct has no padding). -/
def msgBytes (msg : MspMessage) : List Nat :=
  msg.direction :: msg.cmd :: msg.size :: msg.checksum :: msg.payload

/-- The aliasing structure produced by the composition root in `main`:
`MspMessageHandler` declares `FlightDataModel m_dataModel` BY VALUE, so its
constructor copies the model passed in, while its member initialiser
`m_dispatcher(model)` hands the dispatcher a REFERENCE to the original
(the constructor parameter, not the member).  `copyModel` is the handler's
private copy, `origModel` the original `flightModel` the dispatcher
mutates. -/
structure SystemConfig where
  parser : ParserConfig
  copyModel : FlightDataModel
  origModel : FlightDataModel
  deriving DecidableEq

/-- Method `MspMessageHandler::onMspMessage`: copy the raw message into the frame
buffer of the handler's private copy, then dispatch to the executors,
which mutate the original model through the dispatcher's reference. -/
def onMspMessage (s : SystemConfig) (msg : MspMessage) : SystemConfig :=
  { s with
      copyModel := copyToFrameBuffer s.copyModel (msgBytes msg),
      origModel := dispatchMessage mainTable msg s.origModel }

/-- Feed one byte through the parser and deliver every emitted message to
`onMspMessage` (the read loop body in `main`). -/
def feedByte (s : SystemConfig) (b : Nat) : SystemConfig :=
  let r := processByte s.parser b
  (r.2.foldl onMspMessage { s with parser := r.1 })

/-- Feed a byte list through the whole system. -/
def feedBytes (s : SystemConfig) : List Nat → SystemConfig
  | [] => s
  | b :: bs => feedBytes (feedByte s b) bs

/-- The freshly wired system: parser just constructed, handler copy and
original model both default-initialised. -/
def initSystem : SystemConfig :=
  { parser := resetConfig, copyModel := initModel, origModel := initModel }

/-- The bounds invariant of the parser: whenever the machine sits in the
PAYLOAD state the cursor is strictly below the declared size, and the
declared size always fits in a byte. -/
def SizeInv (c : ParserConfig) : Prop :=
  (c.state = ParserState.PAYLOAD → c.bufPtr < c.msg.size) ∧ c.msg.size < 256

/-! Helper lemmas about the parser's step function and runs. -/

theorem processBytes_cons (c : ParserConfig) (b : Nat) (bs : List Nat) :
    processBytes c (b :: bs)
      = ((processBytes (processByte c b).1 bs).1,
         (processByte c b).2 ++ (processBytes (processByte c b).1 bs).2) := rfl

theorem processBytes_append (c : ParserConfig) (l1 l2 : List Nat) :
    processBytes c (l1 ++ l2)
      = ((processBytes (processBytes c l1).1 l2).1,
         (processBytes c l1).2 ++ (processBytes (processBytes c l1).1 l2).2) := by
  induction l1 generalizing c with
  | nil => simp [processBytes]
  | cons b bs ih => simp [processBytes_cons, ih, List.append_assoc]

theorem foldl_xor (l : List Nat) (a : Nat) :
    l.foldl (fun x y => x ^^^ y) a = a ^^^ xorList l := by
  induction l generalizing a with
  | nil => simp [xorList]
  | cons b bs ih =>
      rw [List.foldl_cons, ih (a ^^^ b)]
      rw [show xorList (b :: bs) = List.foldl (fun x y => x ^^^ y) (0 ^^^ b) bs from rfl]
      rw [ih (0 ^^^ b), Nat.zero_xor, Nat.xor_assoc]

theorem xorList_cons (b : Nat) (l : List Nat) :
    xorList (b :: l) = b ^^^ xorList l := by
  rw [show xorList (b :: l) = List.foldl (fun x y => x ^^^ y) (0 ^^^ b) l from rfl]
  rw [foldl_xor, Nat.zero_xor]

theorem xor_lt_256 {a b : Nat} (ha : a < 256) (hb : b < 256) : a ^^^ b < 256 := by
  have h : (256 : Nat) = 2 ^ 8 := rfl
  rw [h] at ha hb ⊢
  exact Nat.xor_lt_two_pow ha hb

theorem xorList_lt_256 (l : List Nat) (h : ∀ x ∈ l, x < 256) : xorList l < 256 := by
  induction l with
  | nil => simp [xorList]
  | cons b bs ih =>
      rw [xorList_cons]
      exact xor_lt_256 (h b (List.mem_cons_self b bs))
        (ih (fun x hx => h x (List.mem_cons_of_mem b hx)))

theorem processByte_size_any (c : ParserConfig) (b : Nat) (h : c.state = ParserState.SIZE) :
    processByte c b
      = (⟨ParserState.CMD,
          { c.msg with size := b % 256, checksum := b % 256, cmd := UNKNOWN }, 0⟩, []) := by
  have hb : b % 256 < 256 := Nat.mod_lt b (by norm_num)
  have hnot : ¬ (b % 256 > MSP_MAX_PAYLOAD_SIZE) := by
    unfold MSP_MAX_PAYLOAD_SIZE
    omega
  simp [processByte, h, hnot]

theorem processByte_size (c : ParserConfig) (b : Nat) (h : c.state = ParserState.SIZE)
    (hb : b < 256) :
    processByte c b
      = (⟨ParserState.CMD, { c.msg with size := b, checksum := b, cmd := UNKNOWN }, 0⟩, []) := by
  have hb2 : b % 256 = b := Nat.mod_eq_of_lt hb
  have hnot : ¬ (b > MSP_MAX_PAYLOAD_SIZE) := by
    unfold MSP_MAX_PAYLOAD_SIZE
    omega
  simp [processByte, h, hb2, hnot]

theorem processByte_cmd (c : ParserConfig) (b : Nat) (h : c.state = ParserState.CMD)
    (hb : b < 256) :
    processByte c b
      = (⟨if c.msg.size = 0 then ParserState.CHECKSUM else ParserState.PAYLOAD,
          { c.msg with checksum := c.msg.checksum ^^^ b, cmd := toMspCommand b }, 0⟩, []) := by
  have hb2 : b % 256 = b := Nat.mod_eq_of_lt hb
  simp [processByte, h, hb2]

theorem processByte_payload (c : ParserConfig) (b : Nat)
    (h : c.state = ParserState.PAYLOAD) (hb : b < 256) :
    processByte c b
      = (⟨if c.bufPtr + 1 = c.msg.size then ParserState.CHECKSUM else ParserState.PAYLOAD,
          { c.msg with
              payload := c.msg.payload.set c.bufPtr b,
              checksum := c.msg.checksum ^^^ b }, c.bufPtr + 1⟩, []) := by
  have hb2 : b % 256 = b := Nat.mod_eq_of_lt hb
  simp [processByte, h, hb2]

theorem processByte_checksum (c : ParserConfig) (b : Nat)
    (h : c.state = ParserState.CHECKSUM) :
    processByte c b
      = (resetConfig, if c.msg.checksum = b % 256 then [c.msg] else []) := by
  simp only [processByte, h]
  split <;> simp_all

/-- Running the parser over the payload bytes of a frame: from the PAYLOAD
state with exactly `size - bufPtr` bytes to come, the machine consumes all
of them, folds them into the checksum, emits nothing, and stops in the
CHECKSUM state. -/
theorem payloadRun : ∀ (ps : List Nat) (c : ParserConfig),
    c.state = ParserState.PAYLOAD → (∀ x ∈ ps, x < 256) → ps ≠ [] →
    c.bufPtr + ps.length = c.msg.size →
    ∃ m : MspMessage,
      processBytes c ps = (⟨ParserState.CHECKSUM, m, c.msg.size⟩, []) ∧
      m.checksum = c.msg.checksum ^^^ xorList ps ∧ m.size = c.msg.size
  | [], _, _, _, hne, _ => absurd rfl hne
  | [b], c, hst, hlt, _, hbp => by
      have hb : b < 256 := hlt b (List.mem_cons_self b [])
      have hstep := processByte_payload c b hst hb
      have hsz : c.bufPtr + 1 = c.msg.size := by simpa using hbp
      refine ⟨{ c.msg with
                  payload := c.msg.payload.set c.bufPtr b,
                  checksum := c.msg.checksum ^^^ b }, ?_, ?_, rfl⟩
      · rw [processBytes_cons, hstep]
        simp [processBytes, hsz]
      · simp [xorList_cons, xorList, Nat.xor_zero]
  | b :: b2 :: bs, c, hst, hlt, _, hbp => by
      have hb : b < 256 := hlt b (List.mem_cons_self b (b2 :: bs))
      have hstep := processByte_payload c b hst hb
      have hne2 : c.bufPtr + 1 ≠ c.msg.size := by
        simp only [List.length_cons] at hbp
        omega
      have hlt2 : ∀ x ∈ b2 :: bs, x < 256 := fun x hx => hlt x (List.mem_cons_of_mem b hx)
      have ih := payloadRun (b2 :: bs)
        ⟨ParserState.PAYLOAD,
         { c.msg with
             payload := c.msg.payload.set c.bufPtr b,
             checksum := c.msg.checksum ^^^ b }, c.bufPtr + 1⟩
        rfl hlt2 (by simp) (by simp only [List.length_cons] at hbp ⊢; omega)
      rcases ih with ⟨m, hrun, hck, hsz⟩
      refine ⟨m, ?_, ?_, hsz⟩
      · rw [processBytes_cons, hstep]
        simp only [if_neg hne2] at hrun ⊢
        simp [hrun]
      · rw [hck]
        simp [xorList_cons, Nat.xor_assoc]

/-- From the SIZE state, a declared length below 256, the command byte, and
exactly `len` payload bytes drive the machine to the CHECKSUM state with the
running checksum `len ^^^ cmdB ^^^ xorList ps`, emitting nothing. -/
theorem sizeRun (c : ParserConfig) (len cmdB : Nat) (ps : List Nat)
    (hst : c.state = ParserState.SIZE) (hlen : len < 256) (hcmd : cmdB < 256)
    (hps : ∀ x ∈ ps, x < 256) (hlenps : ps.length = len) :
    ∃ m : MspMessage,
      processBytes c (len :: cmdB :: ps) = (⟨ParserState.CHECKSUM, m, len⟩, []) ∧
      m.checksum = len ^^^ cmdB ^^^ xorList ps ∧ m.size = len := by
  have h4 := processByte_size c len hst hlen
  have h5 := processByte_cmd
    ⟨ParserState.CMD, { c.msg with size := len, checksum := len, cmd := UNKNOWN }, 0⟩
    cmdB rfl hcmd
  simp only at h5
  by_cases h0 : len = 0
  · subst h0
    have hps0 : ps = [] := List.eq_nil_of_length_eq_zero hlenps
    subst hps0
    refine ⟨⟨c.msg.direction, toMspCommand cmdB, 0, 0 ^^^ cmdB, c.msg.payload⟩, ?_, ?_, rfl⟩
    · rw [processBytes_cons, h4, processBytes_cons, h5]
      simp [processBytes]
    · simp [xorList]
  · have hpsne : ps ≠ [] := by
      intro hnil
      rw [hnil] at hlenps
      exact h0 hlenps.symm
    have hpr := payloadRun ps
      ⟨ParserState.PAYLOAD,
       ⟨c.msg.direction, toMspCommand cmdB, len, len ^^^ cmdB, c.msg.payload⟩, 0⟩
      rfl hps hpsne (by simpa using hlenps)
    rcases hpr with ⟨m, hrun, hck, hsz⟩
    refine ⟨m, ?_, ?_, by simpa using hsz⟩
    · rw [processBytes_cons, h4, processBytes_cons, h5]
      simp only [if_neg h0]
      simp only at hrun
      simp [hrun]
    · rw [hck]

/-- A full well-formed frame fed from the freshly reset parser: the header
is accepted, the machine reaches CHECKSUM with the accumulated checksum
`len ^^^ cmdB ^^^ xorList ps`, and no message is emitted yet. -/
theorem frameRun (dir len cmdB : Nat) (ps : List Nat)
    (hdir : dir = 0x3C ∨ dir = 0x3E) (hlen : len < 256) (hcmd : cmdB < 256)
    (hps : ∀ x ∈ ps, x < 256) (hlenps : ps.length = len) :
    ∃ m : MspMessage,
      processBytes resetConfig (0x24 :: 0x4D :: dir :: len :: cmdB :: ps)
        = (⟨ParserState.CHECKSUM, m, len⟩, []) ∧
      m.checksum = len ^^^ cmdB ^^^ xorList ps ∧ m.size = len := by
  have hd : ∃ d : Nat, processBytes resetConfig [0x24, 0x4D, dir]
      = (⟨ParserState.SIZE, { resetMsg with direction := d }, 0⟩, []) := by
    rcases hdir with h | h <;> subst h
    · exact ⟨0, by decide⟩
    · exact ⟨1, by decide⟩
  rcases hd with ⟨d, hd⟩
  have hsplit := processBytes_append resetConfig [0x24, 0x4D, dir] (len :: cmdB :: ps)
  rw [hd] at hsplit
  simp only at hsplit
  rcases sizeRun ⟨ParserState.SIZE, { resetMsg with direction := d }, 0⟩ len cmdB ps
    rfl hlen hcmd hps hlenps with ⟨m, hrun, hck, hsz⟩
  refine ⟨m, ?_, hck, hsz⟩
  rw [show (0x24 :: 0x4D :: dir :: len :: cmdB :: ps)
        = [0x24, 0x4D, dir] ++ (len :: cmdB :: ps) from rfl]
  rw [hsplit, hrun]
  simp

/-- Closed form of the messages emitted by a single step: a message is
handed to the handler exactly when the machine is in CHECKSUM state and the
incoming byte matches the accumulated checksum. -/
theorem processByte_out (c : ParserConfig) (b : Nat) :
    (processByte c b).2
      = if c.state = ParserState.CHECKSUM ∧ c.msg.checksum = b % 256
        then [c.msg] else [] := by
  cases h : c.state <;> simp only [processByte, h] <;>
    (repeat' split) <;> simp_all

/-- Claim C1 (counterexample): a single garbage byte `$` (which contains no
valid frame: a frame needs at least six bytes and the parser emits nothing
while consuming it), followed by the well-formed zero-length frame
`$ M < 00 66 66` (checksum `0x00 xor 0x66 = 0x66`), yields ZERO emitted
frames instead of the one the claim promises: the garbage `$` puts the
machine in the VERSION state, where the frame's own `$` is discarded
rather than reinterpreted as a start marker. -/
theorem C1_counterexample :
    (processBytes resetConfig [0x24]).2.length = 0 ∧
    (processBytes resetConfig [0x24, 0x4D, 0x3C, 0x00, 0x66, 0x66]).2.length = 1 ∧
    (processBytes resetConfig
        ([0x24] ++ [0x24, 0x4D, 0x3C, 0x00, 0x66, 0x66])).2.length = 0 :=
  ⟨by decide, by decide, by decide⟩

/-- Claim C1 (amended): if processing the `N` garbage bytes leaves the
parser back in its initial (reset) configuration having emitted nothing,
then feeding one well-formed, checksum-correct frame afterwards emits
exactly one Frame, independent of the garbage content and length. -/
theorem C1_resync (g : List Nat) (dir len cmdB : Nat) (ps : List Nat)
    (hg : processBytes resetConfig g = (resetConfig, []))
    (hdir : dir = 0x3C ∨ dir = 0x3E) (hlen : len < 256) (hcmd : cmdB < 256)
    (hps : ∀ x ∈ ps, x < 256) (hlenps : ps.length = len) :
    (processBytes resetConfig
        (g ++ (0x24 :: 0x4D :: dir :: len :: cmdB :: ps)
           ++ [len ^^^ cmdB ^^^ xorList ps])).2.length = 1 := by
  rcases frameRun dir len cmdB ps hdir hlen hcmd hps hlenps with ⟨m, hrun, hck, hsz⟩
  have hckv : len ^^^ cmdB ^^^ xorList ps < 256 :=
    xor_lt_256 (xor_lt_256 hlen hcmd) (xorList_lt_256 ps hps)
  rw [List.append_assoc]
  rw [processBytes_append resetConfig g
    ((0x24 :: 0x4D :: dir :: len :: cmdB :: ps) ++ [len ^^^ cmdB ^^^ xorList ps]), hg]
  simp only
  rw [processBytes_append resetConfig (0x24 :: 0x4D :: dir :: len :: cmdB :: ps)
    [len ^^^ cmdB ^^^ xorList ps], hrun]
  simp only
  rw [processBytes_cons]
  rw [processByte_checksum ⟨ParserState.CHECKSUM, m, len⟩
    (len ^^^ cmdB ^^^ xorList ps) rfl]
  simp [processBytes, hck, Nat.mod_eq_of_lt hckv]

/-- Claim C1 (witness for the amended theorem): one garbage byte `0x00`
followed by the frame `$ M < 01 65 01` and its checksum. -/
theorem C1_resync_witness :
    (processBytes resetConfig
        ([0x00] ++ (0x24 :: 0x4D :: 0x3C :: 1 :: 0x65 :: [0x01])
           ++ [1 ^^^ 0x65 ^^^ xorList [0x01]])).2.length = 1 :=
  C1_resync [0x00] 0x3C 1 0x65 [0x01] (by decide) (Or.inl rfl) (by decide) (by decide)
    (by decide) rfl

/-- Claim C3 (counterexample): in the SIZE state no input byte can declare
a length of 256, and no input byte triggers the oversize reset: the stored
length is the byte value (at most 255) and the guard `size > 256` can
never fire, so the machine always proceeds (the claim's premise of a
declared length of 256, or exceeding 256, is unrealisable and the reset
behaviour it asserts does not exist).  The SIZE-state configuration used
is the one reached by the header `$ M <`. -/
theorem C3_counterexample :
    ¬ ∃ b : Nat,
      ((processByte (processBytes resetConfig [0x24, 0x4D, 0x3C]).1 b).1.msg.size = 256
       ∨ (processByte (processBytes resetConfig [0x24, 0x4D, 0x3C]).1 b).1.state
           = ParserState.IDLE) := by
  rintro ⟨b, hb⟩
  rw [processByte_size_any (processBytes resetConfig [0x24, 0x4D, 0x3C]).1 b (by decide)]
    at hb
  have hm : b % 256 < 256 := Nat.mod_lt b (by norm_num)
  rcases hb with hb | hb
  · simp only at hb
    omega
  · simp only at hb
    exact ParserState.noConfusion hb

/-- Claim C3 (amended): in the SIZE state every declared length byte (its
`uint8_t` value, at most 255) is accepted: the parser records it, proceeds
to the CMD state, never resets, and emits nothing. -/
theorem C3_length_accept (c : ParserConfig) (b : Nat) (h : c.state = ParserState.SIZE) :
    (processByte c b).1.state = ParserState.CMD ∧
    (processByte c b).1.msg.size = b % 256 ∧
    (processByte c b).1.msg.size ≤ 255 ∧
    (processByte c b).2 = [] := by
  rw [processByte_size_any c b h]
  have hm : b % 256 < 256 := Nat.mod_lt b (by norm_num)
  refine ⟨rfl, rfl, ?_, rfl⟩
  simp only
  omega

/-- Claim C3 (witness): the maximal length byte 255 is accepted from the
SIZE-state configuration reached by the header `$ M <`. -/
theorem C3_length_accept_witness :
    (processByte (processBytes resetConfig [0x24, 0x4D, 0x3C]).1 255).1.state
        = ParserState.CMD ∧
    (processByte (processBytes resetConfig [0x24, 0x4D, 0x3C]).1 255).1.msg.size
        = 255 % 256 ∧
    (processByte (processBytes resetConfig [0x24, 0x4D, 0x3C]).1 255).1.msg.size ≤ 255 ∧
    (processByte (processBytes resetConfig [0x24, 0x4D, 0x3C]).1 255).2 = [] :=
  C3_length_accept (processBytes resetConfig [0x24, 0x4D, 0x3C]).1 255 (by decide)

/-- Claim C5: a single step delivers a Frame to the handler exactly when
the machine is in CHECKSUM state and the received byte equals the
accumulated checksum; a delivery is always the complete message (never a
partial one); and from the CHECKSUM state the machine returns to the
initial reset configuration whether or not the byte matched. -/
theorem C5_emission (c : ParserConfig) (b : Nat) :
    ((processByte c b).2 ≠ []
      ↔ c.state = ParserState.CHECKSUM ∧ b % 256 = c.msg.checksum) ∧
    ((processByte c b).2 ≠ [] → (processByte c b).2 = [c.msg]) ∧
    (c.state = ParserState.CHECKSUM → (processByte c b).1 = resetConfig) := by
  have hout := processByte_out c b
  refine ⟨?_, ?_, ?_⟩
  · rw [hout]
    by_cases hc : c.state = ParserState.CHECKSUM ∧ c.msg.checksum = b % 256
    · simp [hc]
    · simp [hc]
      intro h1 h2
      exact hc ⟨h1, h2.symm⟩
  · rw [hout]
    split
    · intro _
      rfl
    · intro h
      exact absurd rfl h
  · intro h
    simp only [processByte, h]
    split <;> rfl

/-- Claim C5 (witness): applied to the CHECKSUM-state configuration reached
by `$ M < 00 66` and the matching checksum byte `0x66`. -/
theorem C5_emission_witness :
    ((processByte (processBytes resetConfig [0x24, 0x4D, 0x3C, 0x00, 0x66]).1 0x66).2 ≠ []
      ↔ (processBytes resetConfig [0x24, 0x4D, 0x3C, 0x00, 0x66]).1.state
            = ParserState.CHECKSUM
        ∧ 0x66 % 256
            = (processBytes resetConfig [0x24, 0x4D, 0x3C, 0x00, 0x66]).1.msg.checksum) ∧
    ((processByte (processBytes resetConfig [0x24, 0x4D, 0x3C, 0x00, 0x66]).1 0x66).2 ≠ []
      → (processByte (processBytes resetConfig [0x24, 0x4D, 0x3C, 0x00, 0x66]).1 0x66).2
          = [(processBytes resetConfig [0x24, 0x4D, 0x3C, 0x00, 0x66]).1.msg]) ∧
    ((processBytes resetConfig [0x24, 0x4D, 0x3C, 0x00, 0x66]).1.state
        = ParserState.CHECKSUM
      → (processByte (processBytes resetConfig [0x24, 0x4D, 0x3C, 0x00, 0x66]).1 0x66).1
          = resetConfig) :=
  C5_emission (processBytes resetConfig [0x24, 0x4D, 0x3C, 0x00, 0x66]).1 0x66

/-- Claim C6: after the parser consumes a well-formed frame prefix
(`$ M dir len cmd payload` with `payload` of length `len`), the
accumulated checksum it will validate against is exactly
`len xor cmd xor payload[0] xor ... xor payload[len-1]`, and the frame is
emitted on the final byte `b` exactly when `b` equals that value. -/
theorem C6_checksum (dir len cmdB : Nat) (ps : List Nat) (b : Nat)
    (hdir : dir = 0x3C ∨ dir = 0x3E) (hlen : len < 256) (hcmd : cmdB < 256)
    (hps : ∀ x ∈ ps, x < 256) (hlenps : ps.length = len) (hb : b < 256) :
    (processBytes resetConfig (0x24 :: 0x4D :: dir :: len :: cmdB :: ps)).1.state
        = ParserState.CHECKSUM ∧
    (processBytes resetConfig (0x24 :: 0x4D :: dir :: len :: cmdB :: ps)).1.msg.checksum
        = len ^^^ cmdB ^^^ xorList ps ∧
    ((processBytes resetConfig
        ((0x24 :: 0x4D :: dir :: len :: cmdB :: ps) ++ [b])).2 ≠ []
      ↔ b = len ^^^ cmdB ^^^ xorList ps) := by
  rcases frameRun dir len cmdB ps hdir hlen hcmd hps hlenps with ⟨m, hrun, hck, hsz⟩
  rw [processBytes_append resetConfig (0x24 :: 0x4D :: dir :: len :: cmdB :: ps) [b]]
  rw [hrun]
  simp only
  refine ⟨by trivial, hck, ?_⟩
  rw [processBytes_cons]
  rw [processByte_checksum ⟨ParserState.CHECKSUM, m, len⟩ b rfl]
  simp only [processBytes]
  rw [Nat.mod_eq_of_lt hb]
  by_cases hmatch : m.checksum = b
  · simp [hmatch]
    rw [← hmatch, hck]
  · simp [hmatch]
    intro hbad
    exact hmatch (by rw [hck, hbad])

/-- Claim C6 (witness): the frame `$ M < 02 65 10 20` has accumulated
checksum `2 xor 0x65 xor 0x10 xor 0x20`, and that byte completes it. -/
theorem C6_checksum_witness :
    (processBytes resetConfig (0x24 :: 0x4D :: 0x3C :: 2 :: 0x65 :: [0x10, 0x20])).1.state
        = ParserState.CHECKSUM ∧
    (processBytes resetConfig
        (0x24 :: 0x4D :: 0x3C :: 2 :: 0x65 :: [0x10, 0x20])).1.msg.checksum
        = 2 ^^^ 0x65 ^^^ xorList [0x10, 0x20] ∧
    ((processBytes resetConfig
        ((0x24 :: 0x4D :: 0x3C :: 2 :: 0x65 :: [0x10, 0x20])
          ++ [2 ^^^ 0x65 ^^^ xorList [0x10, 0x20]])).2 ≠ []
      ↔ 2 ^^^ 0x65 ^^^ xorList [0x10, 0x20] = 2 ^^^ 0x65 ^^^ xorList [0x10, 0x20]) :=
  C6_checksum 0x3C 2 0x65 [0x10, 0x20] (2 ^^^ 0x65 ^^^ xorList [0x10, 0x20])
    (Or.inl rfl) (by decide) (by decide) (by decide) rfl (by decide)

/-- Claim C2 (counterexample): command bytes 7 and 8 are both unknown, yet
the decoded messages carry the same command value `UNKNOWN = 255` — the
numeric id is NOT preserved and distinct unknown ids are not
distinguishable.  Moreover an executor registered against the numeric id 7
never receives such a frame: dispatching the decoded frame (whose command
byte was 7, with 7 payload bytes and `payload[6] = 1`) leaves the model
untouched, although the executor itself would have changed it. -/
theorem C2_counterexample :
    ((processBytes resetConfig [0x24, 0x4D, 0x3C, 0, 7, 7]).2.map MspMessage.cmd
        = [255]) ∧
    ((processBytes resetConfig [0x24, 0x4D, 0x3C, 0, 8, 8]).2.map MspMessage.cmd
        = [255]) ∧
    (7 ≠ 8) ∧
    (dispatchMessage (registerExecutor emptyTable 7 statusExec)
        ((processBytes resetConfig
            [0x24, 0x4D, 0x3C, 7, 7, 0, 0, 0, 0, 0, 0, 1, 1]).2.headD resetMsg)
        initModel
      = initModel) ∧
    (statusExec
        ((processBytes resetConfig
            [0x24, 0x4D, 0x3C, 7, 7, 0, 0, 0, 0, 0, 0, 1, 1]).2.headD resetMsg)
        initModel
      ≠ initModel) :=
  ⟨by decide, by decide, by decide, by decide, by decide⟩

/-- Claim C2 (amended): every unknown command byte is mapped to the single
`UNKNOWN` tag (255), so the numeric id is collapsed, and an executor
registered against `UNKNOWN` receives every such frame when dispatched. -/
theorem C2_unknown_routing (cB : Nat) (e : Executor) (msg : MspMessage)
    (st : FlightDataModel)
    (h101 : cB ≠ 101) (h108 : cB ≠ 108) (h105 : cB ≠ 105) (h102 : cB ≠ 102)
    (hmsg : msg.cmd = toMspCommand cB) :
    toMspCommand cB = UNKNOWN ∧
    dispatchMessage (registerExecutor emptyTable UNKNOWN e) msg st = e msg st := by
  have ht : toMspCommand cB = UNKNOWN := by
    simp [toMspCommand, h101, h108, h105, h102]
  refine ⟨ht, ?_⟩
  rw [ht] at hmsg
  simp [dispatchMessage, registerExecutor, emptyTable, hmsg]

/-- Claim C2 (witness for the amended theorem): command byte 7, the STATUS
executor registered under `UNKNOWN`, and the reset message (whose command
value is 255). -/
theorem C2_unknown_routing_witness :
    toMspCommand 7 = UNKNOWN ∧
    dispatchMessage (registerExecutor emptyTable UNKNOWN statusExec) resetMsg initModel
      = statusExec resetMsg initModel :=
  C2_unknown_routing 7 statusExec resetMsg initModel (by decide) (by decide) (by decide)
    (by decide) (by decide)

/-- Claim C7: registering two executors for the same command id and
dispatching a matching message runs both, in registration order, the
second seeing the state produced by the first. -/
theorem C7_dispatch_order (cid : Nat) (e1 e2 : Executor) (msg : MspMessage)
    (st : FlightDataModel) (hcmd : msg.cmd = cid) :
    dispatchMessage (registerExecutor (registerExecutor emptyTable cid e1) cid e2) msg st
      = e2 msg (e1 msg st) := by
  simp [dispatchMessage, registerExecutor, emptyTable, hcmd]

/-- Claim C7 (witness): STATUS and ATTITUDE executors both registered for
command id 101, dispatched on a message with that id. -/
theorem C7_dispatch_order_witness :
    dispatchMessage
        (registerExecutor (registerExecutor emptyTable 101 statusExec) 101 attitudeExec)
        { resetMsg with cmd := 101 } initModel
      = attitudeExec { resetMsg with cmd := 101 }
          (statusExec { resetMsg with cmd := 101 } initModel) :=
  C7_dispatch_order 101 statusExec attitudeExec { resetMsg with cmd := 101 } initModel
    rfl

/-- Claim C8: dispatching a message with command id 101 through the
program's executor table runs the STATUS executor: with declared length
greater than 6 the armed flag becomes bit 0 of payload byte 6; with length
6 or less the whole state is left unchanged. -/
theorem C8_status_contract (msg : MspMessage) (st : FlightDataModel)
    (hcmd : msg.cmd = STATUS) :
    (6 < msg.size →
      (dispatchMessage mainTable msg st).armed
        = ((msg.payload.getD 6 0 &&& 0x01) != 0)) ∧
    (msg.size ≤ 6 → dispatchMessage mainTable msg st = st) := by
  have ht : mainTable msg.cmd = [statusExec] := by
    rw [hcmd]
    rfl
  have hd : dispatchMessage mainTable msg st = statusExec msg st := by
    simp [dispatchMessage, ht]
  rw [hd]
  constructor
  · intro h6
    simp [statusExec, h6]
  · intro h6
    simp [statusExec, Nat.not_lt.mpr h6]

/-- Claim C8 (witness): a STATUS message of length 7 with `payload[6] = 1`
arms the model. -/
theorem C8_status_contract_witness :
    (dispatchMessage mainTable
        ⟨0, 101, 7, 0, (List.replicate 256 0).set 6 1⟩ initModel).armed
      = (((((List.replicate 256 0).set 6 1).getD 6 0) &&& 0x01) != 0) :=
  (C8_status_contract ⟨0, 101, 7, 0, (List.replicate 256 0).set 6 1⟩ initModel rfl).1
    (by decide)

/-- Claim C4 (counterexample): the spec's exact 12-byte sequence
`24 4D 3C 07 69 00 00 00 00 00 01 6F` (with `0x6F` the checksum value the
spec calls correct) does NOT arm the model and emits no frame at all: the
declared length is 7 but only six payload bytes precede the final byte, so
the final byte is consumed as `payload[6]` and the stream ends while the
parser still awaits the checksum; moreover `0x69` is 105 (the RC command),
not 101 as the spec asserts. -/
theorem C4_counterexample :
    (feedBytes initSystem
        [0x24, 0x4D, 0x3C, 0x07, 0x69, 0, 0, 0, 0, 0, 0x01, 0x6F]).origModel
      = initModel ∧
    (processBytes resetConfig
        [0x24, 0x4D, 0x3C, 0x07, 0x69, 0, 0, 0, 0, 0, 0x01, 0x6F]).2.length = 0 :=
  ⟨by decide, by decide⟩

/-- Claim C4 (amended): the 13-byte sequence
`24 4D 3C 07 65 00 00 00 00 00 00 01 63` — header, LEN = 7,
CMD = 0x65 = 101 (STATUS), seven payload bytes with `payload[6] = 1`, and
the correct checksum `0x63 = 7 xor 0x65 xor 1` — decodes to exactly one
frame and arms the shared model via the STATUS executor, every other field
of the original model staying untouched (no other handler output). -/
theorem C4_status_scenario :
    (feedBytes initSystem
        [0x24, 0x4D, 0x3C, 0x07, 0x65, 0, 0, 0, 0, 0, 0, 0x01, 0x63]).origModel
      = { initModel with armed := true } ∧
    (processBytes resetConfig
        [0x24, 0x4D, 0x3C, 0x07, 0x65, 0, 0, 0, 0, 0, 0, 0x01, 0x63]).2.length = 1 :=
  ⟨by decide, by decide⟩

theorem sizeInv_step (c : ParserConfig) (b : Nat) (h : SizeInv c) :
    SizeInv (processByte c b).1 := by
  obtain ⟨hp, hs⟩ := h
  have hm : b % 256 < 256 := Nat.mod_lt b (by norm_num)
  have hreset : SizeInv resetConfig := by
    unfold SizeInv
    exact ⟨fun hf => absurd hf (by decide), by decide⟩
  unfold SizeInv
  cases hst : c.state
  · simp only [processByte, hst]
    split
    · exact ⟨(fun hf => nomatch hf), hs⟩
    · exact ⟨hp, hs⟩
  · simp only [processByte, hst]
    split
    · exact ⟨(fun hf => nomatch hf), hs⟩
    · exact hreset
  · simp only [processByte, hst]
    split
    · exact ⟨(fun hf => nomatch hf), hs⟩
    · split
      · exact ⟨(fun hf => nomatch hf), hs⟩
      · exact hreset
  · simp only [processByte, hst]
    split
    · exact hreset
    · exact ⟨(fun hf => nomatch hf), hm⟩
  · simp only [processByte, hst]
    split
    next h0 => exact ⟨(fun hf => nomatch hf), hs⟩
    next h0 =>
      refine ⟨fun _ => ?_, hs⟩
      show (0 : Nat) < c.msg.size
      omega
  · simp only [processByte, hst]
    split
    next h0 => exact ⟨(fun hf => nomatch hf), hs⟩
    next h0 =>
      refine ⟨fun _ => ?_, hs⟩
      have hb := hp hst
      have h1 : c.bufPtr + 1 ≠ c.msg.size := h0
      show c.bufPtr + 1 < c.msg.size
      omega
  · simp only [processByte, hst]
    split
    · exact hreset
    · exact hreset

theorem sizeInv_run (l : List Nat) : ∀ c : ParserConfig,
    SizeInv c → SizeInv (processBytes c l).1 := by
  induction l with
  | nil => intro c h; simpa [processBytes] using h
  | cons b bs ih =>
      intro c h
      rw [processBytes_cons]
      exact ih (processByte c b).1 (sizeInv_step c b h)

/-- Claim C9 (implicit payload write safety): on every input stream, when
the parser sits in the PAYLOAD state the cursor used for the next payload
write is strictly below the declared size, which itself is a byte value
below 256 — so every `payload[m_bufPtr++]` write stays strictly inside the
256-byte array. -/
theorem C9_payload_write_safety (l : List Nat) :
    ((processBytes resetConfig l).1.state = ParserState.PAYLOAD →
      (processBytes resetConfig l).1.bufPtr < (processBytes resetConfig l).1.msg.size) ∧
    (processBytes resetConfig l).1.msg.size < 256 := by
  have h0 : SizeInv resetConfig := by
    constructor
    · intro h
      exact absurd h (by decide)
    · decide
  exact sizeInv_run l resetConfig h0

/-- Claim C9 (witness): after `$ M < 02 65 10` the parser is mid-payload
with cursor 1 strictly below the declared size 2, which is below 256. -/
theorem C9_payload_write_safety_witness :
    (processBytes resetConfig [0x24, 0x4D, 0x3C, 2, 0x65, 0x10]).1.bufPtr
        < (processBytes resetConfig [0x24, 0x4D, 0x3C, 2, 0x65, 0x10]).1.msg.size ∧
    (processBytes resetConfig [0x24, 0x4D, 0x3C, 2, 0x65, 0x10]).1.msg.size < 256 :=
  ⟨(C9_payload_write_safety [0x24, 0x4D, 0x3C, 2, 0x65, 0x10]).1 (by decide),
   (C9_payload_write_safety [0x24, 0x4D, 0x3C, 2, 0x65, 0x10]).2⟩

theorem statusExec_frame_fields (msg : MspMessage) (st : FlightDataModel) :
    (statusExec msg st).frameBuffer = st.frameBuffer ∧
    (statusExec msg st).fbCursor = st.fbCursor := by
  unfold statusExec
  split <;> simp

theorem attitudeExec_frame_fields (msg : MspMessage) (st : FlightDataModel) :
    (attitudeExec msg st).frameBuffer = st.frameBuffer ∧
    (attitudeExec msg st).fbCursor = st.fbCursor := by
  unfold attitudeExec
  split <;> simp

theorem fcVariantExec_frame_fields (msg : MspMessage) (st : FlightDataModel) :
    (fcVariantExec msg st).frameBuffer = st.frameBuffer ∧
    (fcVariantExec msg st).fbCursor = st.fbCursor := by
  unfold fcVariantExec
  split <;> (try split) <;> simp

theorem rcConsoleExec_frame_fields (msg : MspMessage) (st : FlightDataModel) :
    (rcConsoleExec msg st).frameBuffer = st.frameBuffer ∧
    (rcConsoleExec msg st).fbCursor = st.fbCursor := by
  unfold rcConsoleExec
  split <;> simp

theorem mainTable_other (k : Nat) (h101 : k ≠ 101) (h108 : k ≠ 108)
    (h102 : k ≠ 102) (h105 : k ≠ 105) : mainTable k = [] := by
  simp [mainTable, baseTable, registerExecutor, emptyTable, STATUS, ATTITUDE,
    FC_VARIANT, RC, h101, h108, h102, h105]

/-- Dispatching through the program's executor table never touches the
frame-buffer fields of the model it mutates: none of the registered
executors writes `frameBuffer` or `fbCursor`. -/
theorem dispatch_frame_fields (msg : MspMessage) (st : FlightDataModel) :
    (dispatchMessage mainTable msg st).frameBuffer = st.frameBuffer ∧
    (dispatchMessage mainTable msg st).fbCursor = st.fbCursor := by
  by_cases h101 : msg.cmd = 101
  · have ht : mainTable msg.cmd = [statusExec] := by
      rw [h101]
      rfl
    simp only [dispatchMessage, ht, List.foldl_cons, List.foldl_nil]
    exact statusExec_frame_fields msg st
  · by_cases h108 : msg.cmd = 108
    · have ht : mainTable msg.cmd = [attitudeExec] := by
        rw [h108]
        rfl
      simp only [dispatchMessage, ht, List.foldl_cons, List.foldl_nil]
      exact attitudeExec_frame_fields msg st
    · by_cases h102 : msg.cmd = 102
      · have ht : mainTable msg.cmd = [fcVariantExec] := by
          rw [h102]
          rfl
        simp only [dispatchMessage, ht, List.foldl_cons, List.foldl_nil]
        exact fcVariantExec_frame_fields msg st
      · by_cases h105 : msg.cmd = 105
        · have ht : mainTable msg.cmd = [rcConsoleExec] := by
            rw [h105]
            rfl
          simp only [dispatchMessage, ht, List.foldl_cons, List.foldl_nil]
          exact rcConsoleExec_frame_fields msg st
        · have ht : mainTable msg.cmd = [] :=
            mainTable_other msg.cmd h101 h108 h102 h105
          simp [dispatchMessage, ht]

/-- Claim C10 (implicit handler-local copy): for every handled message, the
handler's `copyToFrameBuffer` call lands on its private by-value copy of
the model, the original model is mutated exactly by the dispatched
executors, and the original model's `frameBuffer` and `fbCursor` are never
modified. -/
theorem C10_handler_copy (s : SystemConfig) (msg : MspMessage) :
    (onMspMessage s msg).origModel.frameBuffer = s.origModel.frameBuffer ∧
    (onMspMessage s msg).origModel.fbCursor = s.origModel.fbCursor ∧
    (onMspMessage s msg).origModel = dispatchMessage mainTable msg s.origModel ∧
    (onMspMessage s msg).copyModel = copyToFrameBuffer s.copyModel (msgBytes msg) :=
  ⟨(dispatch_frame_fields msg s.origModel).1,
   (dispatch_frame_fields msg s.origModel).2, rfl, rfl⟩

end Msp
